import Mathlib

/-!
# tcp-cpp: the server of `src/server.cpp`

A shallow embedding of `TCPServer` (start / run / stop / handleClient /
cleanupThreads) and of the process-wide flag `g_shutdown_requested`.

* A `char` is a `Byte` (`Fin 256`); a `std::string` is a `List Byte`.
* System calls and library calls whose results the program cannot choose
  (`socket`, `setsockopt`, `bind`, `listen`, `accept`, `recv`, whether a
  `send` returns or raises SIGPIPE, the local time, the values other threads
  have stored in `running` and `g_shutdown_requested`) are inputs of the
  model.
* The program installs handlers for SIGINT and SIGTERM only and calls `send`
  with flags `0`: a `send` on a connection the peer has reset raises SIGPIPE,
  whose default action ends the process inside the call.
* Everything the program does to the outside (system calls, `cout`, `cerr`,
  thread creation and detaching) is recorded as a list of `Event`s.
* A read or write outside an array is undefined behaviour and is `none`.
-/

namespace TcpCpp

/-- One `char` of a C++ string or buffer. -/
abbrev Byte := Fin 256

/-- The bytes of an ASCII string literal of the source. -/
def lit (s : String) : List Byte :=
  s.toList.map (fun c => Fin.ofNat c.toNat)

/-- Member `const int BUFFER_SIZE = 4096;`. -/
def BUFFER_SIZE : Nat := 4096

/-! ## std::string operations used by the server -/

/-- Search of `std::string::find`, from the position `i` of the first byte of
`s`; `none` is `npos`. -/
def findFrom (pat : List Byte) : List Byte → Nat → Option Nat
  | [], i => if pat = [] then some i else none
  | c :: cs, i => if pat.isPrefixOf (c :: cs) then some i else findFrom pat cs (i + 1)

/-- The call `s.find(pat)`: position of the first occurrence of `pat` in `s`. -/
def find (s pat : List Byte) : Option Nat :=
  findFrom pat s 0

/-- The constructor `std::string(const char*)` applied to the start of an
array: the bytes before the first zero byte. Without a zero byte inside the
array the constructor reads past its end. -/
def cString (buffer : List Byte) : Option (List Byte) :=
  if (0 : Byte) ∈ buffer then some (buffer.takeWhile (fun b => b != 0)) else none

/-- The assignment `buffer[i] = b` on an array. -/
def storeByte (buffer : List Byte) (i : Int) (b : Byte) : Option (List Byte) :=
  if 0 ≤ i ∧ i < buffer.length then some (buffer.set i.toNat b) else none

/-! ## Events -/

/-- Lines written to `cout` and `cerr`. -/
inductive Log where
  | failedCreateSocket
  | failedSetOptions
  | failedBind
  | failedListen
  | serverStarted
  | waitingForConnections
  | serverNotStarted
  | failedAccept
  | newConnection
  | serverStopped
  | fromClient (message : List Byte)
  | clientDisconnected
  | errorReceiving
  | closingConnection
  | shutdownSignal
  deriving DecidableEq, Repr

/-- A handle of `std::thread`. `joinable` is what `joinable()` returns: true
from construction until `join()` or `detach()`. `finished` records whether
the thread function (`handleClient`) has returned; no member of
`std::thread` reads it. -/
structure Thread where
  id : Nat
  joinable : Bool
  finished : Bool
  deriving DecidableEq, Repr

/-- What the program does to the outside. -/
inductive Event where
  | socket (ret : Int)
  | setsockopt (fd : Int) (ret : Int)
  | bind (fd : Int) (ret : Int)
  | listen (fd : Int) (ret : Int)
  | accept (fd : Int) (ret : Int)
  | shutdown (fd : Int)
  | close (fd : Int)
  | recv (fd : Int) (ret : Int)
  | send (fd : Int) (data : List Byte)
  | spawn (t : Thread) (client_socket : Int)
  | detach (t : Thread)
  | cout (line : Log)
  | cerr (line : Log)
  | sigpipe
  deriving DecidableEq, Repr

/-- What the peer and the kernel have for one `recv` call. -/
inductive RecvEvent where
  | error
  | closed
  | data (bytes : List Byte)
  deriving DecidableEq, Repr

/-- The call `recv(fd, buffer, len, 0)`: the return value and the buffer
afterwards. At most `len` of the pending bytes are copied to the start of
the buffer. -/
def recvCall (buffer : List Byte) (len : Nat) : RecvEvent → Int × List Byte
  | RecvEvent.error => (-1, buffer)
  | RecvEvent.closed => (0, buffer)
  | RecvEvent.data bytes =>
    let got := bytes.take len
    ((got.length : Int), got ++ buffer.drop got.length)

/-- How a call `send(fd, data, len, 0)` ends. `returned`: the call returns
(the program ignores the value). `sigpipe`: the peer has reset the
connection, the call raises SIGPIPE and the process is terminated.
`blocked`: the peer does not read, the socket has no timeout and the call
does not return. -/
inductive SendOutcome where
  | returned
  | sigpipe
  | blocked
  deriving DecidableEq, Repr

/-- Where control goes at the end of a pass of the receive loop: back to the
loop condition, out of the loop through `break`, or nowhere, the process
having been terminated or the worker being blocked in `send`. -/
inductive Flow where
  | next
  | leave
  | killed
  | blocked
  deriving DecidableEq, Repr

/-- The broken-down local time `struct tm` that `localtime` yields for the
current time. `tm_year` counts from 1900; the years are those whose text
fits the 26 bytes of the result of `asctime`. -/
structure Tm where
  tm_sec : Fin 61
  tm_min : Fin 60
  tm_hour : Fin 24
  tm_mday : Fin 32
  tm_mon : Fin 12
  tm_year : Fin 8100
  tm_wday : Fin 7
  deriving DecidableEq, Repr

/-- The table `wday_name` of `asctime` in the C standard. -/
def wday_name (d : Fin 7) : List Byte :=
  (["Sun", "Mon", "Tue", "Wed", "Thu", "Fri", "Sat"].map lit).getD d.val []

/-- The table `mon_name` of `asctime` in the C standard. -/
def mon_name (m : Fin 12) : List Byte :=
  (["Jan", "Feb", "Mar", "Apr", "May", "Jun", "Jul", "Aug", "Sep", "Oct", "Nov", "Dec"].map
    lit).getD m.val []

/-- The conversion `%d` of `sprintf` on a number that is not negative. -/
def decimal (n : Nat) : List Byte :=
  (Nat.toDigits 10 n).map (fun c => Fin.ofNat c.toNat)

/-- The conversion `%3d`: decimal digits, padded with blanks on the left to
three characters. -/
def decimalWidth3 (n : Nat) : List Byte :=
  List.replicate (3 - (decimal n).length) 32 ++ decimal n

/-- The conversion `%.2d`: decimal digits, padded with zeros on the left to
two digits. -/
def decimalPrecision2 (n : Nat) : List Byte :=
  List.replicate (2 - (decimal n).length) 48 ++ decimal n

/-- The library function `asctime`, as the C standard defines it:
`sprintf(result, "%.3s %.3s%3d %.2d:%.2d:%.2d %d\n", wday_name[tm_wday],
mon_name[tm_mon], tm_mday, tm_hour, tm_min, tm_sec, 1900 + tm_year)`. -/
def asctime (tm : Tm) : List Byte :=
  wday_name tm.tm_wday ++ lit " " ++ mon_name tm.tm_mon ++ decimalWidth3 tm.tm_mday.val
    ++ lit " " ++ decimalPrecision2 tm.tm_hour.val ++ lit ":" ++ decimalPrecision2 tm.tm_min.val
    ++ lit ":" ++ decimalPrecision2 tm.tm_sec.val ++ lit " " ++ decimal (1900 + tm.tm_year.val)
    ++ lit "\n"

/-- The library function `ctime`: `asctime(localtime(t))`, on the local time
that `localtime` yields. -/
def ctime (local_time : Tm) : List Byte :=
  asctime local_time

/-- Thursday 1 January 1970, 00:00:00. -/
def epoch : Tm :=
  { tm_sec := 0, tm_min := 0, tm_hour := 0, tm_mday := 1, tm_mon := 0, tm_year := 70,
    tm_wday := 4 }

/-- What one pass of the receive loop reads from outside the worker:
`running` as the loop condition finds it, `g_shutdown_requested` at that
moment, the outcome of `recv`, the local time of the system clock, and how
the `send` of the pass ends. -/
structure WorkerTick where
  running : Bool
  shutdown_requested : Bool
  recv : RecvEvent
  now : Tm
  send : SendOutcome
  deriving DecidableEq, Repr

/-- The string `goodbye` of `handleClient`. -/
def goodbye : List Byte := lit "Goodbye!\n"

/-- The string `help` of `handleClient`. -/
def help : List Byte :=
  lit "Available commands:\n/help - Show this help\n/time - Get server time\n/quit - Disconnect\n"

/-- A call `send(client_socket, data, len, 0)` after the events `pre`, and
where control goes: to `flow` when the call returns; when it raises SIGPIPE
the process ends inside the call; when it blocks the worker stays in it. -/
def sendThen (pre : List Event) (client_socket : Int) (data : List Byte) (flow : Flow) :
    SendOutcome → List Event × Flow
  | SendOutcome.returned => (pre ++ [Event.send client_socket data], flow)
  | SendOutcome.sigpipe => (pre ++ [Event.send client_socket data, Event.sigpipe], Flow.killed)
  | SendOutcome.blocked => (pre ++ [Event.send client_socket data], Flow.blocked)

/-- The body of the loop `while (running)` of `handleClient`, lines 161-198:
the events of the pass, and where control goes at its end. -/
def loopBody (client_socket : Int) (t : WorkerTick) : Option (List Event × Flow) :=
  let buffer := List.replicate BUFFER_SIZE (0 : Byte)
  let r := recvCall buffer (BUFFER_SIZE - 1) t.recv
  let bytes_received := r.1
  let buffer := r.2
  if bytes_received ≤ 0 then
    if bytes_received = 0 then
      some ([Event.recv client_socket bytes_received, Event.cout Log.clientDisconnected],
        Flow.leave)
    else
      some ([Event.recv client_socket bytes_received, Event.cout Log.errorReceiving],
        Flow.leave)
  else
    match storeByte buffer bytes_received 0 with
    | none => none
    | some buffer =>
      match cString buffer with
      | none => none
      | some message =>
        let pre := [Event.recv client_socket bytes_received, Event.cout (Log.fromClient message)]
        if find message (lit "/quit") = some 0 then
          some (sendThen pre client_socket goodbye Flow.leave t.send)
        else if find message (lit "/time") = some 0 then
          let time_str := lit "Server time: " ++ ctime t.now
          some (sendThen pre client_socket time_str Flow.next t.send)
        else if find message (lit "/help") = some 0 then
          some (sendThen pre client_socket help Flow.next t.send)
        else
          let response := lit "Echo: " ++ message
          some (sendThen pre client_socket response Flow.next t.send)

/-- The loop `while (running)` of `handleClient` with what follows it, lines
160-202. A worker whose list of ticks is used up is blocked and does
nothing more, and so does a worker blocked in `send`; after SIGPIPE there
is no process to do anything more. -/
def receiveLoop (client_socket : Int) : List WorkerTick → Option (List Event)
  | [] => some []
  | t :: rest =>
    if t.running then
      match loopBody client_socket t with
      | none => none
      | some (evs, Flow.next) => (receiveLoop client_socket rest).map (fun tl => evs ++ tl)
      | some (evs, Flow.leave) =>
        some (evs ++ [Event.cout Log.closingConnection, Event.close client_socket])
      | some (evs, Flow.killed) => some evs
      | some (evs, Flow.blocked) => some evs
    else
      some [Event.cout Log.closingConnection, Event.close client_socket]

/-- The data members of `TCPServer`. An element of `client_threads` is a
`unique_ptr<thread>`: `none` is the null pointer. -/
structure TCPServer where
  listening_socket : Int
  running : Bool
  client_threads : List (Option Thread)
  deriving DecidableEq, Repr

/-- The constructor `TCPServer()`. -/
def TCPServer.new : TCPServer :=
  { listening_socket := -1, running := false, client_threads := [] }

/-- The outcomes of the four system calls of `start`: the descriptor that
`socket` returns (`none` when it fails), and for `setsockopt`, `bind` and
`listen` whether the call succeeds. -/
structure StartEnv where
  socket : Option Nat
  setsockopt : Bool
  bind : Bool
  listen : Bool
  deriving DecidableEq, Repr

/-- The return value of a system call that yields a descriptor: `-1` on
failure. -/
def fdRet : Option Nat → Int
  | none => -1
  | some fd => (fd : Int)

/-- The return value of a system call that yields a status: `0` on success
and `-1` on failure. -/
def statusRet (ok : Bool) : Int :=
  if ok then 0 else -1

/-- The method `TCPServer::start`: the server afterwards, the value returned
and the events. -/
def start (s : TCPServer) (env : StartEnv) : TCPServer × Bool × List Event :=
  let listening_socket := fdRet env.socket
  let s := { s with listening_socket := listening_socket }
  if listening_socket = -1 then
    (s, false, [Event.socket listening_socket, Event.cerr Log.failedCreateSocket])
  else if statusRet env.setsockopt < 0 then
    (s, false, [Event.socket listening_socket,
      Event.setsockopt listening_socket (statusRet env.setsockopt),
      Event.cerr Log.failedSetOptions, Event.close listening_socket])
  else if statusRet env.bind = -1 then
    (s, false, [Event.socket listening_socket,
      Event.setsockopt listening_socket (statusRet env.setsockopt),
      Event.bind listening_socket (statusRet env.bind),
      Event.cerr Log.failedBind, Event.close listening_socket])
  else if statusRet env.listen = -1 then
    (s, false, [Event.socket listening_socket,
      Event.setsockopt listening_socket (statusRet env.setsockopt),
      Event.bind listening_socket (statusRet env.bind),
      Event.listen listening_socket (statusRet env.listen),
      Event.cerr Log.failedListen, Event.close listening_socket])
  else
    ({ s with running := true }, true, [Event.socket listening_socket,
      Event.setsockopt listening_socket (statusRet env.setsockopt),
      Event.bind listening_socket (statusRet env.bind),
      Event.listen listening_socket (statusRet env.listen),
      Event.cout Log.serverStarted, Event.cout Log.waitingForConnections])

/-- The loop of `stop` over `client_threads`: a `detach` for every pointer
that is not null and whose thread is joinable. -/
def detachAll : List (Option Thread) → List Event
  | [] => []
  | some t :: rest => if t.joinable then Event.detach t :: detachAll rest else detachAll rest
  | none :: rest => detachAll rest

/-- The method `TCPServer::stop`: the server afterwards and the events. -/
def stop (s : TCPServer) : TCPServer × List Event :=
  if !s.running then (s, [])
  else
    let s1 := { s with running := false }
    let closing : TCPServer × List Event :=
      if s1.listening_socket ≠ -1 then
        ({ s1 with listening_socket := -1 },
          [Event.shutdown s1.listening_socket, Event.close s1.listening_socket])
      else (s1, [])
    let s2 := closing.1
    ({ s2 with client_threads := [] },
      closing.2 ++ detachAll s2.client_threads ++ [Event.cout Log.serverStopped])

/-- The predicate of `remove_if` in `cleanupThreads`: `t && !t->joinable()`. -/
def removable : Option Thread → Bool
  | some t => !t.joinable
  | none => false

/-- The method `TCPServer::cleanupThreads`: erase-remove of the pointers the
predicate selects; the others keep their order. -/
def cleanupThreads (s : TCPServer) : TCPServer :=
  { s with client_threads := s.client_threads.filter (fun p => !removable p) }

/-- Every pointer of the registry is not null and its thread is joinable. -/
def allJoinable : List (Option Thread) → Bool
  | [] => true
  | some t :: rest => t.joinable && allJoinable rest
  | none :: _ => false

/-- Record that the thread functions of the workers with these ids have
returned. This is not a step of the program: the workers run on their own
threads, and nothing in `std::thread` changes when one returns. -/
def markFinished (ids : List Nat) (threads : List (Option Thread)) : List (Option Thread) :=
  threads.map (fun p => p.map (fun t => if t.id ∈ ids then { t with finished := true } else t))

/-- What one pass of the accept loop reads from outside: `running` and
`g_shutdown_requested` as the loop condition finds them, the descriptor
`accept` returns (`none` when it fails), the two flags as the test after a
failed `accept` finds them, the id of the thread created, and the workers
whose thread function has returned before `cleanupThreads` is called. -/
structure AcceptTick where
  running : Bool
  shutdown_requested : Bool
  accept : Option Nat
  running_after : Bool
  shutdown_after : Bool
  thread_id : Nat
  finished : List Nat
  deriving DecidableEq, Repr

/-- The loop `while (running && !g_shutdown_requested)` of `run`, lines
92-122. A loop whose list of ticks is used up is blocked in `accept`. -/
def acceptLoop (s : TCPServer) : List AcceptTick → TCPServer × List Event
  | [] => (s, [])
  | t :: rest =>
    if t.running && !t.shutdown_requested then
      let client_socket := fdRet t.accept
      if client_socket = -1 then
        if t.running_after && !t.shutdown_after then
          (s, [Event.accept s.listening_socket client_socket, Event.cerr Log.failedAccept])
        else
          (s, [Event.accept s.listening_socket client_socket])
      else
        let th : Thread := { id := t.thread_id, joinable := true, finished := false }
        let s1 := { s with client_threads := s.client_threads ++ [some th] }
        let s2 := { s1 with client_threads := markFinished t.finished s1.client_threads }
        let r := acceptLoop (cleanupThreads s2) rest
        (r.1, [Event.accept s.listening_socket client_socket, Event.cout Log.newConnection,
          Event.spawn th client_socket] ++ r.2)
    else (s, [])

/-- The method `TCPServer::run`. -/
def run (s : TCPServer) (ticks : List AcceptTick) : TCPServer × List Event :=
  if !s.running then (s, [Event.cerr Log.serverNotStarted])
  else acceptLoop s ticks

/-- The function `signal_handler`: the new value of `g_shutdown_requested`
and the events. -/
def signal_handler (_g_shutdown_requested : Bool) : Bool × List Event :=
  (true, [Event.cout Log.shutdownSignal])

/-- The number of `accept` calls among the events. -/
def acceptCount : List Event → Nat
  | [] => 0
  | Event.accept _ _ :: es => acceptCount es + 1
  | _ :: es => acceptCount es

/-- The number of threads created among the events. -/
def spawnCount : List Event → Nat
  | [] => 0
  | Event.spawn _ _ :: es => spawnCount es + 1
  | _ :: es => spawnCount es

/-! ## The descriptors of the kernel -/

/-- The open descriptors after the events: `socket` and `accept` open the
descriptor they return, `close` closes one. -/
def openAfter (fds : List Int) : List Event → List Int
  | [] => fds
  | Event.socket ret :: es => openAfter (if ret = -1 then fds else ret :: fds) es
  | Event.accept _ ret :: es => openAfter (if ret = -1 then fds else ret :: fds) es
  | Event.close fd :: es => openAfter (fds.filter (fun x => x != fd)) es
  | _ :: es => openAfter fds es

/-- A call of `start` with the outcomes of its system calls, or of `stop`. -/
inductive Op where
  | start (env : StartEnv)
  | stop
  deriving DecidableEq, Repr

/-- The server and the open descriptors after one call. -/
def step (w : TCPServer × List Int) : Op → TCPServer × List Int
  | Op.start env => ((start w.1 env).1, openAfter w.2 (start w.1 env).2.2)
  | Op.stop => ((stop w.1).1, openAfter w.2 (stop w.1).2)

/-- The server and the open descriptors after a sequence of calls. -/
def runOps (w : TCPServer × List Int) : List Op → TCPServer × List Int
  | [] => w
  | op :: ops => runOps (step w op) ops

/-- The listening socket handle is valid: it is not `-1` and the descriptor
is open. -/
def handleValid (w : TCPServer × List Int) : Bool :=
  w.1.listening_socket != -1 && w.2.contains w.1.listening_socket

/-- The invariant of ListenerState: the handle is valid iff `running`. -/
def listenerInvariant (w : TCPServer × List Int) : Bool :=
  handleValid w == w.1.running

/-- Every `start` of the sequence is called on a server that is not
running. -/
def startsWhenStopped (w : TCPServer × List Int) : List Op → Bool
  | [] => true
  | Op.start env :: ops => !w.1.running && startsWhenStopped (step w (Op.start env)) ops
  | Op.stop :: ops => startsWhenStopped (step w Op.stop) ops

theorem takeWhile_append_zero (g r : List Byte) :
    (g ++ (0 : Byte) :: r).takeWhile (fun b => b != 0) = g.takeWhile (fun b => b != 0) := by
  induction g with
  | nil => simp
  | cons a g ih =>
    by_cases ha : a = 0
    · simp [ha]
    · simp [List.takeWhile_cons, ha, ih]

theorem takeWhile_length_le (g : List Byte) :
    (g.takeWhile (fun b => b != 0)).length ≤ g.length :=
  (List.takeWhile_sublist _).length_le

/-- The buffer after `memset` and a `recv` that delivered the bytes `g`. -/
theorem recvCall_data (n : Nat) (bytes : List Byte) :
    recvCall (List.replicate n (0 : Byte)) (n - 1) (RecvEvent.data bytes)
      = (((bytes.take (n - 1)).length : Int),
          bytes.take (n - 1) ++ List.replicate (n - (bytes.take (n - 1)).length) 0) := by
  simp [recvCall]

theorem storeByte_terminator (g : List Byte) (k : Nat) :
    storeByte (g ++ List.replicate (k + 1) (0 : Byte)) (g.length : Int) 0
      = some (g ++ List.replicate (k + 1) (0 : Byte)) := by
  unfold storeByte
  have h1 : (0 : Int) ≤ (g.length : Int) := Int.ofNat_nonneg _
  have h2 : (g.length : Int) < ((g ++ List.replicate (k + 1) (0 : Byte)).length : Int) := by
    simp
  rw [if_pos ⟨h1, h2⟩]
  congr 1
  simp [List.replicate_succ]

theorem cString_terminated (g : List Byte) (k : Nat) :
    cString (g ++ List.replicate (k + 1) (0 : Byte)) = some (g.takeWhile (fun b => b != 0)) := by
  unfold cString
  rw [if_pos (by simp [List.replicate_succ])]
  simp [List.replicate_succ, takeWhile_append_zero]

/-- The bytes a `recv` for at most `BUFFER_SIZE - 1` bytes delivers. -/
theorem delivered_length_le (bytes : List Byte) :
    (bytes.take (BUFFER_SIZE - 1)).length ≤ BUFFER_SIZE - 1 := by
  simp [List.length_take]

/-- One pass of the receive loop on a non-empty delivery: the message is the
delivered bytes cut at the first zero byte, and the reply is chosen by its
prefix. -/
theorem loopBody_data (client_socket : Int) (t : WorkerTick) (bytes : List Byte)
    (h : t.recv = RecvEvent.data bytes) (hne : bytes ≠ []) :
    loopBody client_socket t =
      some (
        if find ((bytes.take (BUFFER_SIZE - 1)).takeWhile (fun b => b != 0)) (lit "/quit") = some 0 then
          sendThen
            [Event.recv client_socket ((bytes.take (BUFFER_SIZE - 1)).length : Int),
              Event.cout (Log.fromClient ((bytes.take (BUFFER_SIZE - 1)).takeWhile (fun b => b != 0)))]
            client_socket goodbye Flow.leave t.send
        else if find ((bytes.take (BUFFER_SIZE - 1)).takeWhile (fun b => b != 0)) (lit "/time") = some 0 then
          sendThen
            [Event.recv client_socket ((bytes.take (BUFFER_SIZE - 1)).length : Int),
              Event.cout (Log.fromClient ((bytes.take (BUFFER_SIZE - 1)).takeWhile (fun b => b != 0)))]
            client_socket (lit "Server time: " ++ ctime t.now) Flow.next t.send
        else if find ((bytes.take (BUFFER_SIZE - 1)).takeWhile (fun b => b != 0)) (lit "/help") = some 0 then
          sendThen
            [Event.recv client_socket ((bytes.take (BUFFER_SIZE - 1)).length : Int),
              Event.cout (Log.fromClient ((bytes.take (BUFFER_SIZE - 1)).takeWhile (fun b => b != 0)))]
            client_socket help Flow.next t.send
        else
          sendThen
            [Event.recv client_socket ((bytes.take (BUFFER_SIZE - 1)).length : Int),
              Event.cout (Log.fromClient ((bytes.take (BUFFER_SIZE - 1)).takeWhile (fun b => b != 0)))]
            client_socket (lit "Echo: " ++ ((bytes.take (BUFFER_SIZE - 1)).takeWhile (fun b => b != 0))) Flow.next t.send) := by
  have hle := delivered_length_le bytes
  have hpos : 0 < (bytes.take (BUFFER_SIZE - 1)).length := by
    cases bytes with
    | nil => exact absurd rfl hne
    | cons b bs => simp [BUFFER_SIZE]
  generalize hg : bytes.take (BUFFER_SIZE - 1) = got at hle hpos ⊢
  obtain ⟨k, hk⟩ : ∃ k, BUFFER_SIZE - got.length = k + 1 :=
    ⟨BUFFER_SIZE - got.length - 1, by unfold BUFFER_SIZE at hle ⊢; omega⟩
  unfold loopBody
  have hnot : ¬ ((got.length : Int) ≤ 0) := by omega
  simp only [h, recvCall_data, hg, hk, hnot, if_false, storeByte_terminator, cString_terminated]
  split_ifs <;> rfl

/-! ## Prefixes of the message -/

theorem receiveLoop_continue (client_socket : Int) (t : WorkerTick) (rest : List WorkerTick)
    (evs : List Event) (hrun : t.running = true)
    (hb : loopBody client_socket t = some (evs, Flow.next)) :
    receiveLoop client_socket (t :: rest)
      = (receiveLoop client_socket rest).map (fun tl => evs ++ tl) := by
  rw [receiveLoop, if_pos hrun, hb]

/-- C9, as amended: the loop condition of the worker is `running`. When the
worker finds `running` false it performs no `recv` and no `send`: it closes
its socket. The value of `g_shutdown_requested` has no part in what the
worker does. -/
theorem worker_leaves_when_not_running (client_socket : Int) (t : WorkerTick)
    (rest : List WorkerTick) (hrun : t.running = false) :
    receiveLoop client_socket (t :: rest)
        = some [Event.cout Log.closingConnection, Event.close client_socket]
      ∧ ∀ (flag : Bool) (u : WorkerTick) (more : List WorkerTick),
          receiveLoop client_socket ({ u with shutdown_requested := flag } :: more)
            = receiveLoop client_socket (u :: more) := by
  constructor
  · rw [receiveLoop, if_neg (by simp [hrun])]
  · intro flag u more
    rw [receiveLoop, receiveLoop]
    rfl

/-- Witness of `worker_leaves_when_not_running`. -/
theorem worker_leaves_when_not_running_witness :
    receiveLoop 5 [⟨false, true, RecvEvent.data (lit "hi\n"), epoch, SendOutcome.returned⟩]
        = some [Event.cout Log.closingConnection, Event.close 5]
      ∧ ∀ (flag : Bool) (u : WorkerTick) (more : List WorkerTick),
          receiveLoop 5 ({ u with shutdown_requested := flag } :: more)
            = receiveLoop 5 (u :: more) :=
  worker_leaves_when_not_running 5
    ⟨false, true, RecvEvent.data (lit "hi\n"), epoch, SendOutcome.returned⟩ [] rfl

/-- C9, counterexample: after `signal_handler` has set the flag, and with
`running` still true, the worker performs a `recv` and answers the
message. -/
theorem worker_ignores_shutdown_flag :
    (signal_handler false).1 = true
      ∧ receiveLoop 5 [⟨true, (signal_handler false).1, RecvEvent.data (lit "hi\n"), epoch,
            SendOutcome.returned⟩]
          = some [Event.recv 5 3, Event.cout (Log.fromClient (lit "hi\n")),
              Event.send 5 (lit "Echo: hi\n")] := by
  refine ⟨rfl, ?_⟩
  rw [receiveLoop_continue 5 _ [] _ rfl
    (loopBody_data 5 ⟨true, (signal_handler false).1, RecvEvent.data (lit "hi\n"), epoch,
        SendOutcome.returned⟩
      (lit "hi\n") rfl (by decide))]
  decide

/-! ## The receive buffer -/

/-- C10: when `recv`, asked for at most `BUFFER_SIZE - 1` bytes of the zeroed
buffer, returns `n` that passes the test `n <= 0`, then `1 ≤ n ≤ BUFFER_SIZE - 1`,
the write `buffer[n] = 0` is inside the `BUFFER_SIZE` bytes of the buffer, and
the message built from the buffer is the `n` received bytes up to the first
zero byte, so its length is at most `n` and at most 4095. -/
theorem receive_buffer_safe (ev : RecvEvent) (n : Int) (buf : List Byte)
    (hr : recvCall (List.replicate BUFFER_SIZE (0 : Byte)) (BUFFER_SIZE - 1) ev = (n, buf))
    (hpass : ¬ n ≤ 0) :
    1 ≤ n ∧ n ≤ (BUFFER_SIZE : Int) - 1 ∧ buf.length = BUFFER_SIZE ∧ n < (buf.length : Int)
      ∧ ∃ buffer message, storeByte buf n 0 = some buffer
          ∧ buffer.length = BUFFER_SIZE
          ∧ cString buffer = some message
          ∧ message = (buf.take n.toNat).takeWhile (fun b => b != 0)
          ∧ (message.length : Int) ≤ n
          ∧ message.length ≤ 4095 := by
  cases ev with
  | error =>
    simp only [recvCall, Prod.mk.injEq] at hr
    omega
  | closed =>
    simp only [recvCall, Prod.mk.injEq] at hr
    omega
  | data bytes =>
    rw [recvCall_data] at hr
    have hle := delivered_length_le bytes
    generalize bytes.take (BUFFER_SIZE - 1) = got at hr hle
    simp only [Prod.mk.injEq] at hr
    obtain ⟨hn, hbuf⟩ := hr
    subst hn
    have hpos : 0 < got.length := by omega
    obtain ⟨k, hk⟩ : ∃ k, BUFFER_SIZE - got.length = k + 1 :=
      ⟨BUFFER_SIZE - got.length - 1, by unfold BUFFER_SIZE at hle ⊢; omega⟩
    rw [hk] at hbuf
    subst hbuf
    have hlen : (got ++ List.replicate (k + 1) (0 : Byte)).length = BUFFER_SIZE := by
      rw [List.length_append, List.length_replicate]
      unfold BUFFER_SIZE at hle hk ⊢
      omega
    have hmsg := takeWhile_length_le got
    refine ⟨by omega, ?_, hlen, ?_, _, _, storeByte_terminator got k, hlen,
      cString_terminated got k, ?_, ?_, ?_⟩
    · unfold BUFFER_SIZE at hle ⊢
      omega
    · rw [hlen]
      unfold BUFFER_SIZE at hle ⊢
      omega
    · simp
    · exact_mod_cast hmsg
    · unfold BUFFER_SIZE at hle
      omega

/-- Witness of `receive_buffer_safe`: a peer that has 5000 bytes pending, of
which `recv` delivers 4095. -/
theorem receive_buffer_safe_witness :
    1 ≤ (4095 : Int) ∧ (4095 : Int) ≤ (BUFFER_SIZE : Int) - 1
      ∧ (List.replicate 4095 (120 : Byte) ++ List.replicate 1 0).length = BUFFER_SIZE
      ∧ (4095 : Int) < ((List.replicate 4095 (120 : Byte) ++ List.replicate 1 0).length : Int)
      ∧ ∃ buffer message,
          storeByte (List.replicate 4095 (120 : Byte) ++ List.replicate 1 0) 4095 0 = some buffer
          ∧ buffer.length = BUFFER_SIZE
          ∧ cString buffer = some message
          ∧ message = ((List.replicate 4095 (120 : Byte) ++ List.replicate 1 0).take
              (4095 : Int).toNat).takeWhile (fun b => b != 0)
          ∧ (message.length : Int) ≤ 4095
          ∧ message.length ≤ 4095 :=
  receive_buffer_safe (RecvEvent.data (List.replicate 5000 120)) 4095
    (List.replicate 4095 (120 : Byte) ++ List.replicate 1 0)
    (by
      rw [recvCall_data]
      simp only [BUFFER_SIZE, List.take_replicate, List.length_replicate]
      rfl)
    (by decide)

/-! ## stop -/

theorem stop_not_running (s : TCPServer) : (stop s).1.running = false := by
  unfold stop
  cases h : s.running
  · simp [h]
  · simp only [h, Bool.not_true, Bool.false_eq_true, if_false]
    split_ifs <;> rfl

/-- C5: `stop` is idempotent. After one call of `stop` a second call leaves
the server (`running`, `listening_socket`, `client_threads`) as it is and
has no event: no `shutdown`, no `close`, no `detach` and no output. -/
theorem stop_idempotent (s : TCPServer) :
    stop (stop s).1 = ((stop s).1, []) ∧ (stop (stop s).1).1 = (stop s).1 := by
  have h : stop (stop s).1 = ((stop s).1, []) := by
    have hr := stop_not_running s
    generalize (stop s).1 = s1 at hr
    unfold stop
    simp [hr]
  exact ⟨h, by rw [h]⟩

/-! ## The listener invariant -/

theorem contains_filter_ne (fds : List Int) (fd : Int) :
    (fds.filter (fun x => x != fd)).contains fd = false := by
  simp [List.mem_filter]

/-- A call of `stop` keeps the invariant. -/
theorem step_stop_invariant (w : TCPServer × List Int) (h : listenerInvariant w = true) :
    listenerInvariant (step w Op.stop) = true := by
  obtain ⟨⟨ls, running, threads⟩, fds⟩ := w
  cases running with
  | false => simpa [step, stop] using h
  | true =>
    by_cases hls : ls = -1
    · simp [step, stop, hls, openAfter, listenerInvariant, handleValid]
    · simp [step, stop, hls, listenerInvariant, handleValid]

/-- A call of `start` on a server that is not running keeps the invariant. -/
theorem step_start_invariant (w : TCPServer × List Int) (env : StartEnv)
    (hstopped : w.1.running = false) :
    listenerInvariant (step w (Op.start env)) = true := by
  obtain ⟨⟨ls, running, threads⟩, fds⟩ := w
  simp only at hstopped
  subst hstopped
  obtain ⟨sock, o, b, l⟩ := env
  cases sock with
  | none => simp [step, start, fdRet, listenerInvariant, handleValid]
  | some fd =>
    have hfd : ((fd : Int) = -1) = False := by
      simp only [eq_iff_iff, iff_false]
      omega
    have hfilter := contains_filter_ne ((fd : Int) :: fds) (fd : Int)
    cases o <;> cases b <;> cases l <;>
      simp [step, start, fdRet, statusRet, hfd, openAfter, listenerInvariant, handleValid,
        hfilter]

theorem runOps_invariant (ops : List Op) (w : TCPServer × List Int)
    (hinv : listenerInvariant w = true) (hops : startsWhenStopped w ops = true) :
    listenerInvariant (runOps w ops) = true := by
  induction ops generalizing w with
  | nil => simpa [runOps] using hinv
  | cons op ops ih =>
    cases op with
    | start env =>
      simp only [startsWhenStopped, Bool.and_eq_true, Bool.not_eq_true'] at hops
      exact ih _ (step_start_invariant w env hops.1) hops.2
    | stop =>
      simp only [startsWhenStopped] at hops
      exact ih _ (step_stop_invariant w hinv) hops

/-- C6, as amended: in every state reached from the constructor by calls of
`start` (each of whose four system calls may succeed or fail) and `stop`,
where `start` is only called on a server that is not running, the listening
socket handle is valid (not `-1` and open) if and only if `running` is
true. -/
theorem listener_invariant (ops : List Op)
    (hops : startsWhenStopped (TCPServer.new, []) ops = true) :
    (handleValid (runOps (TCPServer.new, []) ops) = true
      ↔ (runOps (TCPServer.new, []) ops).1.running = true) := by
  have h := runOps_invariant ops (TCPServer.new, []) (by decide) hops
  unfold listenerInvariant at h
  rw [beq_iff_eq] at h
  rw [h]

/-- Witness of `listener_invariant`: a `start` that fails in `bind`, a `start`
that succeeds, `stop`, `stop` again and one more `start`. -/
theorem listener_invariant_witness :
    (handleValid (runOps (TCPServer.new, [])
        [Op.start ⟨some 3, true, false, true⟩, Op.start ⟨some 3, true, true, true⟩,
          Op.stop, Op.stop, Op.start ⟨some 4, true, true, true⟩]) = true
      ↔ (runOps (TCPServer.new, [])
        [Op.start ⟨some 3, true, false, true⟩, Op.start ⟨some 3, true, true, true⟩,
          Op.stop, Op.stop, Op.start ⟨some 4, true, true, true⟩]).1.running = true) :=
  listener_invariant
    [Op.start ⟨some 3, true, false, true⟩, Op.start ⟨some 3, true, true, true⟩,
      Op.stop, Op.stop, Op.start ⟨some 4, true, true, true⟩] (by decide)

/-- C6, counterexample: `start` succeeds, then `start` is called again and
`socket` fails. The server is running and its handle is `-1`. -/
theorem listener_invariant_counterexample :
    (runOps (TCPServer.new, [])
        [Op.start ⟨some 3, true, true, true⟩, Op.start ⟨none, true, true, true⟩]).1.running = true
      ∧ (runOps (TCPServer.new, [])
        [Op.start ⟨some 3, true, true, true⟩, Op.start ⟨none, true, true, true⟩]).1.listening_socket
          = -1
      ∧ ¬ (handleValid (runOps (TCPServer.new, [])
            [Op.start ⟨some 3, true, true, true⟩, Op.start ⟨none, true, true, true⟩]) = true
          ↔ (runOps (TCPServer.new, [])
            [Op.start ⟨some 3, true, true, true⟩, Op.start ⟨none, true, true, true⟩]).1.running
              = true) := by
  decide

/-! ## The accept loop -/

/-- C7: a failed `accept` ends the accept loop, also when the server is
running and the shutdown flag is not set: the failure is logged and `run`
returns; whatever the later ticks hold, there is no second `accept`. -/
theorem accept_failure_ends_loop (listening_socket : Int) (threads : List (Option Thread))
    (thread_id : Nat) (finished : List Nat) (rest : List AcceptTick) :
    run ⟨listening_socket, true, threads⟩
        (⟨true, false, none, true, false, thread_id, finished⟩ :: rest)
      = (⟨listening_socket, true, threads⟩,
          [Event.accept listening_socket (-1), Event.cerr Log.failedAccept])
    ∧ acceptCount (run ⟨listening_socket, true, threads⟩
        (⟨true, false, none, true, false, thread_id, finished⟩ :: rest)).2 = 1 := by
  have h : run ⟨listening_socket, true, threads⟩
        (⟨true, false, none, true, false, thread_id, finished⟩ :: rest)
      = (⟨listening_socket, true, threads⟩,
          [Event.accept listening_socket (-1), Event.cerr Log.failedAccept]) := by
    simp [run, acceptLoop, fdRet]
  rw [h]
  exact ⟨rfl, rfl⟩

/-! ## The registry of workers -/

theorem allJoinable_iff (threads : List (Option Thread)) :
    allJoinable threads = true ↔ ∀ p ∈ threads, ∃ t, p = some t ∧ t.joinable = true := by
  induction threads with
  | nil => simp [allJoinable]
  | cons p rest ih =>
    cases p with
    | none =>
      simp only [allJoinable, Bool.false_eq_true, false_iff]
      intro h
      obtain ⟨t, ht, _⟩ := h none (List.mem_cons_self _ _)
      cases ht
    | some t =>
      simp only [allJoinable, Bool.and_eq_true, ih, List.mem_cons, forall_eq_or_imp,
        Option.some.injEq, exists_eq_left']

/-- On a registry whose threads are all joinable `cleanupThreads` removes
nothing, whether the workers have finished or not. -/
theorem cleanupThreads_all_joinable (s : TCPServer) (h : allJoinable s.client_threads = true) :
    cleanupThreads s = s := by
  obtain ⟨ls, running, threads⟩ := s
  simp only [cleanupThreads, TCPServer.mk.injEq, true_and]
  rw [List.filter_eq_self]
  intro p hp
  obtain ⟨t, rfl, ht⟩ := (allJoinable_iff threads).mp h p hp
  simp [removable, ht]

theorem markFinished_allJoinable (ids : List Nat) (threads : List (Option Thread))
    (h : allJoinable threads = true) : allJoinable (markFinished ids threads) = true := by
  rw [allJoinable_iff] at h ⊢
  intro p hp
  simp only [markFinished, List.mem_map] at hp
  obtain ⟨q, hq, rfl⟩ := hp
  obtain ⟨t, rfl, ht⟩ := h q hq
  by_cases hid : t.id ∈ ids
  · exact ⟨{ t with finished := true }, by simp [hid], ht⟩
  · exact ⟨t, by simp [hid], ht⟩

theorem spawnCount_append (l r : List Event) :
    spawnCount (l ++ r) = spawnCount l + spawnCount r := by
  induction l with
  | nil => simp [spawnCount]
  | cons e l ih =>
    cases e
    all_goals simp only [List.cons_append, spawnCount, List.append_eq, ih]
    all_goals omega

/-- The registry during `run`: every thread in it is joinable, so no pass of
`cleanupThreads` removes one, and the registry grows by one with every
accepted connection, whatever workers have finished. -/
theorem acceptLoop_registry (ticks : List AcceptTick) (s : TCPServer)
    (h : allJoinable s.client_threads = true) :
    allJoinable (acceptLoop s ticks).1.client_threads = true
      ∧ (acceptLoop s ticks).1.client_threads.length
          = s.client_threads.length + spawnCount (acceptLoop s ticks).2 := by
  induction ticks generalizing s with
  | nil => exact ⟨h, rfl⟩
  | cons t rest ih =>
    rw [acceptLoop]
    by_cases h1 : (t.running && !t.shutdown_requested) = true
    · rw [if_pos h1]
      by_cases h2 : fdRet t.accept = -1
      · simp only [h2, if_true]
        split_ifs <;> exact ⟨h, rfl⟩
      · simp only [h2, if_false]
        have hnew : allJoinable (markFinished t.finished
            (s.client_threads ++ [some ⟨t.thread_id, true, false⟩])) = true := by
          apply markFinished_allJoinable
          rw [allJoinable_iff] at h ⊢
          intro p hp
          rcases List.mem_append.mp hp with hp | hp
          · exact h p hp
          · exact ⟨_, List.mem_singleton.mp hp, rfl⟩
        have hc := cleanupThreads_all_joinable
          ⟨s.listening_socket, s.running, markFinished t.finished
            (s.client_threads ++ [some ⟨t.thread_id, true, false⟩])⟩ hnew
        rw [hc]
        obtain ⟨ih1, ih2⟩ := ih ⟨s.listening_socket, s.running, markFinished t.finished
            (s.client_threads ++ [some ⟨t.thread_id, true, false⟩])⟩ hnew
        refine ⟨ih1, ?_⟩
        have hlen : (markFinished t.finished
            (s.client_threads ++ [some ⟨t.thread_id, true, false⟩])).length
              = s.client_threads.length + 1 := by
          simp [markFinished]
        dsimp only at ih2 ⊢
        rw [ih2, hlen]
        rw [spawnCount_append]
        simp only [spawnCount]
        omega
    · rw [if_neg h1]
      exact ⟨h, rfl⟩

/-- C8: `cleanupThreads` keeps a worker whose `handleClient` has returned. On
the registry of worker 1 (finished) and worker 2 (executing), both joinable
as `run` created them, it removes nothing; and after `run` has accepted
three connections, the first two workers having finished, the registry holds
all three. -/
theorem cleanupThreads_keeps_finished :
    cleanupThreads ⟨3, true, [some ⟨1, true, true⟩, some ⟨2, true, false⟩]⟩
        = ⟨3, true, [some ⟨1, true, true⟩, some ⟨2, true, false⟩]⟩
      ∧ (run ⟨3, true, []⟩
          [⟨true, false, some 4, true, false, 1, []⟩,
            ⟨true, false, some 5, true, false, 2, [1]⟩,
            ⟨true, false, some 6, true, false, 3, [1, 2]⟩]).1.client_threads
        = [some ⟨1, true, true⟩, some ⟨2, true, true⟩, some ⟨3, true, false⟩] := by
  decide

end TcpCpp
